import Mathlib

/-!
Verification of the LLM provider pool and failover router of PaperFlow
(`llm_pool.py`, `llm_service.py`).  The Python code is shallowly embedded:
pure fragments become Lean functions, the retry loops become structural
recursion over the list of attempt indices (`range max_retries`), and the
adapter's network call is abstracted as an oracle mapping a channel and an
attempt number to a result.  Machine strings and integers are modelled with
`String` and `Int`; Python `str.strip`/`str.split` are re-implemented over
`List Char` so every definition evaluates inside the kernel.
-/

namespace PaperFlow

/-- Drop whitespace on both ends of a character list; model of Python
`str.strip()` restricted to the usual whitespace characters. -/
def trimChars (cs : List Char) : List Char :=
  ((cs.dropWhile Char.isWhitespace).reverse.dropWhile Char.isWhitespace).reverse

/-- Python `s.strip()`. -/
def pyStrip (s : String) : String := ⟨trimChars s.data⟩

/-- Python `s.split(sep)` for a one-character separator: splits on every
occurrence and keeps empty groups, so `"a,b,,c".split(",")` has four groups
and `"".split(",")` is `[""]`. -/
def splitChars (sep : Char) : List Char → List (List Char)
  | [] => [[]]
  | c :: rest =>
    match splitChars sep rest with
    | [] => if c = sep then [[], []] else [[c]]
    | g :: gs => if c = sep then [] :: g :: gs else (c :: g) :: gs

/-- Python `s.split(",")`. -/
def pySplitComma (s : String) : List String :=
  (splitChars ',' s.data).map fun g => ⟨g⟩

/-- Python `s.split("//")`: non-overlapping matches consumed left to right. -/
def splitDoubleSlash : List Char → List (List Char)
  | [] => [[]]
  | '/' :: '/' :: rest => [] :: splitDoubleSlash rest
  | c :: rest =>
    match splitDoubleSlash rest with
    | [] => [[c]]
    | g :: gs => (c :: g) :: gs

/-- `base_url.split("//")[-1].split("/")[0] if base_url else "googleapis.com"`
from `LLMManager._build_pool` (the host part used as the provider label). -/
def providerOf (base_url : String) : String :=
  if base_url = "" then "googleapis.com"
  else ⟨(splitChars '/' ((splitDoubleSlash base_url.data).getLastD [])).headD []⟩

/-- One enabled provider record as returned by
`llm_service.get_enabled_providers`: the dictionary fields `_build_pool`
reads. -/
structure ProviderEntry where
  name : String
  base_url : String
  api_key : String
  api_type : String
  models : String
  is_primary : Bool
  weight : Int
  priority : Int
deriving DecidableEq, Repr

/-- One entry of the client pool built by `LLMManager._build_pool`.  The
`client` object of the source is represented by the credential (`key`) it
was constructed from; all the other fields are carried verbatim. -/
structure Channel where
  key : String
  model : String
  provider : String
  api_type : String
  is_primary : Bool
  weight : Int
  priority : Int
  model_index : Nat
  id : String
deriving DecidableEq, Repr

/-- The channels contributed by one provider record: credentials and models
are comma-split, stripped and filtered for non-emptiness, then expanded as
keys x models with `model_index` enumerating the model list
(`_build_pool`, the loop body before the final sort). -/
def buildChannels (entry : ProviderEntry) : List Channel :=
  let base_url := pyStrip entry.base_url
  let keys := ((pySplitComma entry.api_key).map pyStrip).filter fun k => k ≠ ""
  let models := ((pySplitComma entry.models).map pyStrip).filter fun m => m ≠ ""
  keys.flatMap fun key =>
    models.enum.map fun im =>
      { key := key
        model := im.2
        provider := providerOf base_url
        api_type := entry.api_type
        is_primary := entry.is_primary
        weight := entry.weight
        priority := entry.priority
        model_index := im.1
        id := "[" ++ im.2 ++ "] @ " ++ providerOf base_url }

/-- Rank of the `not x.get("is_primary", False)` component of the Python
sort key: primary channels rank 0, the rest rank 1. -/
def primRank (c : Channel) : Nat := if c.is_primary then 0 else 1

/-- The sort key of `_build_pool`:
`(not is_primary, priority, model_index)` compared lexicographically.
It mentions neither `weight` nor any other field. -/
def poolKeyLe (a b : Channel) : Prop :=
  primRank a < primRank b ∨
    (primRank a = primRank b ∧
      (a.priority < b.priority ∨
        (a.priority = b.priority ∧ a.model_index ≤ b.model_index)))

instance : DecidableRel poolKeyLe := fun a b => by
  unfold poolKeyLe
  infer_instance

instance : IsTotal Channel poolKeyLe :=
  ⟨by
    intro a b
    cases ha : a.is_primary <;> cases hb : b.is_primary <;>
      simp [poolKeyLe, primRank, ha, hb] <;> omega⟩

instance : IsTrans Channel poolKeyLe :=
  ⟨by
    intro a b c hab hbc
    cases ha : a.is_primary <;> cases hb : b.is_primary <;> cases hc : c.is_primary <;>
      simp_all [poolKeyLe, primRank] <;> omega⟩

/-- `LLMManager._build_pool`: expand every enabled provider record into
channels, then stable-sort the whole list by `poolKeyLe`
(`client_pool.sort(key=lambda x: (not is_primary, priority, model_index))`;
Python's sort is stable and the stable sort by a total preorder is unique,
so `List.insertionSort` computes the same list). -/
def build_pool (providers : List ProviderEntry) : List Channel :=
  (providers.flatMap buildChannels).insertionSort poolKeyLe

lemma poolKeyLe_primary_first {a b : Channel} (h : poolKeyLe a b)
    (hb : b.is_primary = true) : a.is_primary = true := by
  cases ha : a.is_primary <;> simp_all [poolKeyLe, primRank]

lemma poolKeyLe_priority_mono {a b : Channel} (h : poolKeyLe a b)
    (ha : a.is_primary = false) (hb : b.is_primary = false) :
    a.priority ≤ b.priority := by
  simp_all [poolKeyLe, primRank]
  omega

lemma poolKeyLe_model_index_mono {a b : Channel} (h : poolKeyLe a b)
    (hp : a.is_primary = b.is_primary) (hq : a.priority = b.priority) :
    a.model_index ≤ b.model_index := by
  cases ha : a.is_primary <;> cases hb : b.is_primary <;>
    simp_all [poolKeyLe, primRank]

lemma poolKeyLe_key_only {a b : Channel}
    (hp : a.is_primary = b.is_primary) (hq : a.priority = b.priority)
    (hm : a.model_index = b.model_index) (c : Channel) :
    (poolKeyLe a c ↔ poolKeyLe b c) ∧ (poolKeyLe c a ↔ poolKeyLe c b) := by
  constructor <;> simp [poolKeyLe, primRank, hp, hq, hm]

/-- C3.  The pool built by `_build_pool` is sorted by the key
`(isPrimary desc, priority asc, modelIndex asc)` and is a permutation of the
expanded channels: primary channels precede every non-primary channel
regardless of priority, non-primary channels appear in non-decreasing
priority order, channels agreeing on the primary flag and the priority are
in `model_index` (declared model list) order, and the comparator depends
only on `(is_primary, priority, model_index)` — in particular `weight`
plays no role in the ordering. -/
theorem build_pool_sorted_by_key (providers : List ProviderEntry) :
    List.Sorted poolKeyLe (build_pool providers) ∧
    (build_pool providers).Perm (providers.flatMap buildChannels) ∧
    (∀ i j (hi : i < (build_pool providers).length)
        (hj : j < (build_pool providers).length), i < j →
        ((build_pool providers).get ⟨j, hj⟩).is_primary = true →
        ((build_pool providers).get ⟨i, hi⟩).is_primary = true) ∧
    (∀ i j (hi : i < (build_pool providers).length)
        (hj : j < (build_pool providers).length), i < j →
        ((build_pool providers).get ⟨i, hi⟩).is_primary = false →
        ((build_pool providers).get ⟨j, hj⟩).is_primary = false →
        ((build_pool providers).get ⟨i, hi⟩).priority ≤
          ((build_pool providers).get ⟨j, hj⟩).priority) ∧
    (∀ i j (hi : i < (build_pool providers).length)
        (hj : j < (build_pool providers).length), i < j →
        ((build_pool providers).get ⟨i, hi⟩).is_primary =
          ((build_pool providers).get ⟨j, hj⟩).is_primary →
        ((build_pool providers).get ⟨i, hi⟩).priority =
          ((build_pool providers).get ⟨j, hj⟩).priority →
        ((build_pool providers).get ⟨i, hi⟩).model_index ≤
          ((build_pool providers).get ⟨j, hj⟩).model_index) ∧
    (∀ a b : Channel, a.is_primary = b.is_primary → a.priority = b.priority →
        a.model_index = b.model_index → ∀ c : Channel,
        (poolKeyLe a c ↔ poolKeyLe b c) ∧ (poolKeyLe c a ↔ poolKeyLe c b)) := by
  have hs : List.Sorted poolKeyLe (build_pool providers) :=
    List.sorted_insertionSort poolKeyLe _
  refine ⟨hs, List.perm_insertionSort poolKeyLe _, ?_, ?_, ?_, ?_⟩
  · intro i j hi hj hij hpj
    exact poolKeyLe_primary_first (hs.rel_get_of_lt (show (⟨i, hi⟩ : Fin _) < ⟨j, hj⟩ from hij)) hpj
  · intro i j hi hj hij hpi hpj
    exact poolKeyLe_priority_mono (hs.rel_get_of_lt (show (⟨i, hi⟩ : Fin _) < ⟨j, hj⟩ from hij)) hpi hpj
  · intro i j hi hj hij hp hq
    exact poolKeyLe_model_index_mono (hs.rel_get_of_lt (show (⟨i, hi⟩ : Fin _) < ⟨j, hj⟩ from hij)) hp hq
  · intro a b hp hq hm c
    exact poolKeyLe_key_only hp hq hm c

/-- The concrete two-provider scenario of the spec: provider A has
`priority=1, isPrimary=false, models="gpt-x"`, provider B has
`priority=5, isPrimary=true, models="gpt-y"`. -/
def demoProviders : List ProviderEntry :=
  [{ name := "A", base_url := "https://a.example/v1", api_key := "ka",
     api_type := "openai", models := "gpt-x", is_primary := false,
     weight := 10, priority := 1 },
   { name := "B", base_url := "https://b.example/v1", api_key := "kb",
     api_type := "openai", models := "gpt-y", is_primary := true,
     weight := 10, priority := 5 }]

/-- Witness for C3: the primary provider B's channel precedes A's channel
even though A has the better priority, and the built pool is sorted. -/
theorem build_pool_sorted_by_key_witness :
    (build_pool demoProviders).map Channel.id =
      ["[gpt-y] @ b.example", "[gpt-x] @ a.example"] ∧
    List.Sorted poolKeyLe (build_pool demoProviders) :=
  ⟨by decide, (build_pool_sorted_by_key demoProviders).1⟩

/-- Terminal outcome of one dispatch of `LLMManager.chat` /
`LLMManager.chat_stream`:
`success` is a normal return, `raised e` is `raise last_error` after full
exhaustion, `raisedGeneric` is the fallback
`ValueError("all LLM channels unavailable")` raised when no attempt ever
recorded an error, and `raisedPoolEmpty` is the immediate
`ValueError("pool empty")` for a pool with zero channels. -/
inductive ChatOutcome (ε ρ : Type) where
  | success : ρ → ChatOutcome ε ρ
  | raised : ε → ChatOutcome ε ρ
  | raisedGeneric : ChatOutcome ε ρ
  | raisedPoolEmpty : ChatOutcome ε ρ
deriving DecidableEq, Repr

deriving instance DecidableEq for Except

/-- One adapter attempt as observed by the logging sink: the channel, the
attempt index within `range(max_retries)`, and the attempt's result. -/
structure AttemptRec (ε ρ : Type) where
  channel : Channel
  attempt : Nat
  result : Except ε ρ
deriving DecidableEq, Repr

/-- The inner `for attempt in range(max_retries)` loop of `chat`, run over
the list of remaining attempt indices.  `call` is the adapter call for the
fixed channel (including the validator check), `le` is the incoming
`last_error`.  Returns the attempt trace, the response of the first
successful attempt (if any), and the final `last_error`. -/
def runAttempts {ε ρ : Type} (call : Nat → Except ε ρ) :
    List Nat → Option ε → List (Nat × Except ε ρ) × Option ρ × Option ε
  | [], le => ([], none, le)
  | a :: as, le =>
    match call a with
    | .ok r => ([(a, .ok r)], some r, le)
    | .error e =>
      let rest := runAttempts call as (some e)
      ((a, .error e) :: rest.1, rest.2.1, rest.2.2)

/-- The outer `for node in target_pool` loop of `chat`, threading
`last_error`; after the last channel the terminal
`raise last_error or ValueError(...)` fires. -/
def chatGo {ε ρ : Type} (oracle : Channel → Nat → Except ε ρ) (maxRetries : Nat) :
    Option ε → List Channel → List (AttemptRec ε ρ) × ChatOutcome ε ρ
  | le, [] =>
    ([], match le with
      | some e => ChatOutcome.raised e
      | none => ChatOutcome.raisedGeneric)
  | le, c :: rest =>
    match runAttempts (oracle c) (List.range maxRetries) le with
    | (tr, some r, _) =>
      (tr.map fun kr => AttemptRec.mk c kr.1 kr.2, ChatOutcome.success r)
    | (tr, none, le2) =>
      let next := chatGo oracle maxRetries le2 rest
      ((tr.map fun kr => AttemptRec.mk c kr.1 kr.2) ++ next.1, next.2)

/-- `LLMManager.chat`.  The adapter call (OpenAI / Gemini / Anthropic
dispatch on `api_type`, messages, temperature, response_format) is
abstracted as `oracle channel attempt`; `maxRetries` is the `Int` returned
by `_get_max_retries`, and `range(max_retries)` of a non-positive value is
empty, exactly as `Int.toNat` yields `0`. -/
def chat {ε ρ : Type} (oracle : Channel → Nat → Except ε ρ)
    (pool : List Channel) (maxRetries : Int) :
    List (AttemptRec ε ρ) × ChatOutcome ε ρ :=
  if pool.isEmpty then ([], ChatOutcome.raisedPoolEmpty)
  else chatGo oracle maxRetries.toNat none pool

/-- Value of a digit string, most significant digit first. -/
def digitsToNat (ds : List Char) : Nat :=
  ds.foldl (fun acc c => acc * 10 + (c.toNat - '0'.toNat)) 0

/-- Model of Python `int(s)` on strings: surrounding whitespace stripped,
an optional sign, then a non-empty run of decimal digits; anything else
raises `ValueError` (`none`). -/
def parsePyInt (s : String) : Option Int :=
  let core : List Char → Option Int := fun ds =>
    if ds ≠ [] ∧ ds.all Char.isDigit then some (Int.ofNat (digitsToNat ds))
    else none
  match trimChars s.data with
  | '+' :: rest => core rest
  | '-' :: rest => (core rest).map Neg.neg
  | cs => core cs

/-- `LLMManager._get_max_retries`: read the `llm_max_retries` configuration
value (defaulting to `"3"` when the key is absent), convert with `int`,
and fall back to `3` when the conversion raises. -/
def get_max_retries (stored : Option String) : Int :=
  match parsePyInt (stored.getD "3") with
  | some n => n
  | none => 3

lemma runAttempts_ok {ε ρ : Type} (call : Nat → Except ε ρ) (r : ρ) (j : Nat) :
    ∀ (as1 as2 : List Nat) (le : Option ε),
      (∀ a ∈ as1, ∃ e, call a = .error e) → call j = .ok r →
      ∃ le2, runAttempts call (as1 ++ j :: as2) le =
        (as1.map (fun a => (a, call a)) ++ [(j, Except.ok r)], some r, le2) := by
  intro as1
  induction as1 with
  | nil =>
    intro as2 le _ hok
    exact ⟨le, by simp [runAttempts, hok]⟩
  | cons a as1 ih =>
    intro as2 le hfail hok
    obtain ⟨e, he⟩ := hfail a (List.mem_cons_self a as1)
    obtain ⟨le2, hrest⟩ := ih as2 (some e)
      (fun b hb => hfail b (List.mem_cons_of_mem a hb)) hok
    exact ⟨le2, by simp [runAttempts, he, hrest]⟩

lemma runAttempts_cons_error {ε ρ : Type} (call : Nat → Except ε ρ)
    (a : Nat) (as : List Nat) (le : Option ε) (e : ε) (he : call a = .error e) :
    runAttempts call (a :: as) le =
      ((a, Except.error e) :: (runAttempts call as (some e)).1,
        (runAttempts call as (some e)).2.1, (runAttempts call as (some e)).2.2) := by
  simp [runAttempts, he]

lemma runAttempts_allFail {ε ρ : Type} (call : Nat → Except ε ρ) (errs : Nat → ε) :
    ∀ (as : List Nat) (le : Option ε), (∀ a ∈ as, call a = .error (errs a)) →
      runAttempts call as le =
        (as.map fun a => (a, Except.error (errs a)), none,
          match as.getLast? with
          | some b => some (errs b)
          | none => le) := by
  intro as
  induction as with
  | nil => intro le _; simp [runAttempts]
  | cons a as ih =>
    intro le hfail
    have he := hfail a (List.mem_cons_self a as)
    have hrest := ih (some (errs a)) (fun b hb => hfail b (List.mem_cons_of_mem a hb))
    rw [runAttempts_cons_error call a as le (errs a) he, hrest]
    cases as with
    | nil => simp
    | cons b bs =>
      rw [List.getLast?_cons_cons,
        List.getLast?_eq_getLast (b :: bs) (List.cons_ne_nil b bs)]
      simp

lemma range_split {j n : Nat} (h : j < n) :
    ∃ tail, List.range n = List.range j ++ j :: tail := by
  induction n with
  | zero => omega
  | succ m ih =>
    rcases Nat.lt_succ_iff_lt_or_eq.mp h with hlt | rfl
    · obtain ⟨tail, htail⟩ := ih hlt
      exact ⟨tail ++ [m], by rw [List.range_succ, htail]; simp⟩
    · exact ⟨[], by rw [List.range_succ]⟩

lemma range_getLast? {n : Nat} (h : 0 < n) :
    (List.range n).getLast? = some (n - 1) := by
  obtain ⟨m, rfl⟩ : ∃ m, n = m + 1 := ⟨n - 1, by omega⟩
  rw [List.range_succ, List.getLast?_concat]
  simp

lemma chatGo_cons_ok {ε ρ : Type} (oracle : Channel → Nat → Except ε ρ)
    (c : Channel) (rest : List Channel) (n : Nat) (le : Option ε)
    (j : Nat) (r : ρ) (hj : j < n)
    (hbefore : ∀ i < j, ∃ e, oracle c i = .error e)
    (hok : oracle c j = .ok r) :
    chatGo oracle n le (c :: rest) =
      (((List.range j).map fun i => AttemptRec.mk c i (oracle c i)) ++
        [AttemptRec.mk c j (Except.ok r)], ChatOutcome.success r) := by
  obtain ⟨tail, hsplit⟩ := range_split hj
  obtain ⟨le2, hrun⟩ := runAttempts_ok (oracle c) r j (List.range j) tail le
    (fun a ha => hbefore a (List.mem_range.mp ha)) hok
  simp only [chatGo, hsplit, hrun]
  simp [List.map_append, List.map_map, Function.comp]

lemma chatGo_cons_fail {ε ρ : Type} (oracle : Channel → Nat → Except ε ρ)
    (errs : Nat → ε) (c : Channel) (rest : List Channel) (n : Nat)
    (le : Option ε) (hn : 0 < n)
    (hfail : ∀ i < n, oracle c i = .error (errs i)) :
    chatGo oracle n le (c :: rest) =
      (((List.range n).map fun i => AttemptRec.mk c i (Except.error (errs i))) ++
          (chatGo oracle n (some (errs (n - 1))) rest).1,
        (chatGo oracle n (some (errs (n - 1))) rest).2) := by
  have hrun := runAttempts_allFail (oracle c) errs (List.range n) le
    (fun a ha => hfail a (List.mem_range.mp ha))
  rw [range_getLast? hn] at hrun
  simp only [chatGo, hrun]
  simp [List.map_map, Function.comp]

lemma chatGo_pre_fail {ε ρ : Type} (oracle : Channel → Nat → Except ε ρ)
    (errsC : Channel → Nat → ε) (n : Nat) (hn : 0 < n) :
    ∀ (pre suffix : List Channel) (le : Option ε),
      (∀ d ∈ pre, ∀ i < n, oracle d i = .error (errsC d i)) →
      chatGo oracle n le (pre ++ suffix) =
        ((pre.flatMap fun d => (List.range n).map fun i =>
            AttemptRec.mk d i (Except.error (errsC d i))) ++
          (chatGo oracle n
            (match pre.getLast? with
              | some d => some (errsC d (n - 1))
              | none => le) suffix).1,
          (chatGo oracle n
            (match pre.getLast? with
              | some d => some (errsC d (n - 1))
              | none => le) suffix).2) := by
  intro pre
  induction pre with
  | nil => intro suffix le _; simp
  | cons d pre ih =>
    intro suffix le hfail
    rw [List.cons_append, chatGo_cons_fail oracle (errsC d) d (pre ++ suffix) n le hn
      (fun i hi => hfail d (List.mem_cons_self d pre) i hi)]
    rw [ih suffix (some (errsC d (n - 1)))
      (fun b hb i hi => hfail b (List.mem_cons_of_mem d hb) i hi)]
    cases pre with
    | nil => simp
    | cons d2 pre2 =>
      rw [List.getLast?_cons_cons,
        List.getLast?_eq_getLast (d2 :: pre2) (List.cons_ne_nil d2 pre2)]
      simp

/-- C1.  Dispatch via `chat` tries the channels strictly in pool order: with
every channel of `pre` failing all of its `n = maxRetries` attempts, the
first succeeding channel `c` (failing before attempt `j`, succeeding at
`j < n`), the trace is exactly `n` attempts per `pre`-channel in pool
order, followed by `c`'s attempts up to and including its first success,
whose result is returned immediately: no later attempt on `c` and no
channel of `post` is ever evaluated. -/
theorem chat_tries_in_order_and_returns_first_success {ε ρ : Type}
    (oracle : Channel → Nat → Except ε ρ) (pre post : List Channel) (c : Channel)
    (errsC : Channel → Nat → ε) (n j : Nat) (r : ρ)
    (hpre : ∀ d ∈ pre, ∀ i < n, oracle d i = .error (errsC d i))
    (hj : j < n)
    (hbefore : ∀ i < j, ∃ e, oracle c i = .error e)
    (hok : oracle c j = .ok r) :
    chat oracle (pre ++ c :: post) (Int.ofNat n) =
      ((pre.flatMap fun d => (List.range n).map fun i =>
          AttemptRec.mk d i (Except.error (errsC d i))) ++
        (((List.range j).map fun i => AttemptRec.mk c i (oracle c i)) ++
          [AttemptRec.mk c j (Except.ok r)]),
        ChatOutcome.success r) := by
  have hemp : (pre ++ c :: post).isEmpty = false := by
    cases pre <;> simp [List.isEmpty]
  have h1 : chat oracle (pre ++ c :: post) (Int.ofNat n) =
      chatGo oracle n none (pre ++ c :: post) := by
    simp [chat, hemp]
  rw [h1, chatGo_pre_fail oracle errsC n (by omega) pre (c :: post) none hpre,
    chatGo_cons_ok oracle c post n _ j r hj hbefore hok]

/-- Channel built from provider A in the demonstrations below. -/
def chanA : Channel :=
  { key := "ka", model := "gpt-a", provider := "a.example", api_type := "openai",
    is_primary := false, weight := 10, priority := 1, model_index := 0,
    id := "[gpt-a] @ a.example" }

/-- Channel built from provider B in the demonstrations below. -/
def chanB : Channel :=
  { key := "kb", model := "gpt-b", provider := "b.example", api_type := "openai",
    is_primary := false, weight := 10, priority := 2, model_index := 0,
    id := "[gpt-b] @ b.example" }

/-- Oracle where channel A always fails and every other channel succeeds. -/
def demoOracle : Channel → Nat → Except String String :=
  fun c _ => if c = chanA then Except.error "boom" else Except.ok "B"

/-- Witness for C1, the spec's own scenario: `maxRetries=3`, channel A
always fails, channel B always succeeds — exactly three attempts on A,
then B's first result is returned. -/
theorem chat_tries_in_order_witness :
    chat demoOracle [chanA, chanB] (Int.ofNat 3) =
      ([AttemptRec.mk chanA 0 (Except.error "boom"),
        AttemptRec.mk chanA 1 (Except.error "boom"),
        AttemptRec.mk chanA 2 (Except.error "boom"),
        AttemptRec.mk chanB 0 (Except.ok "B")], ChatOutcome.success "B") :=
  (chat_tries_in_order_and_returns_first_success demoOracle [chanA] [] chanB
      (fun _ _ => "boom") 3 0 "B"
      (by intro d hd i hi; rw [List.mem_singleton] at hd; subst hd; rfl)
      (by omega)
      (by intro i hi; exact absurd hi (Nat.not_lt_zero i))
      (by rfl)).trans (by decide)

/-- C2.  When every channel of a non-empty pool fails every one of its
`n = maxRetries` attempts, `chat` raises exactly one terminal error — the
re-raise of `last_error`, i.e. the error of the very last attempt on the
very last channel — and never returns a successful result. -/
theorem chat_full_exhaustion_raises_last_cause {ε ρ : Type}
    (oracle : Channel → Nat → Except ε ρ) (errsC : Channel → Nat → ε)
    (pool : List Channel) (n : Nat) (hne : pool ≠ []) (hn : 0 < n)
    (hfail : ∀ d ∈ pool, ∀ i < n, oracle d i = .error (errsC d i)) :
    chat oracle pool (Int.ofNat n) =
      (pool.flatMap fun d => (List.range n).map fun i =>
          AttemptRec.mk d i (Except.error (errsC d i)),
        ChatOutcome.raised (errsC (pool.getLast hne) (n - 1))) := by
  have hemp : pool.isEmpty = false := by
    cases pool
    · exact absurd rfl hne
    · rfl
  have h1 : chat oracle pool (Int.ofNat n) = chatGo oracle n none pool := by
    simp [chat, hemp]
  have h2 := chatGo_pre_fail oracle errsC n hn pool [] none hfail
  rw [List.append_nil] at h2
  rw [h1, h2, List.getLast?_eq_getLast pool hne]
  simp [chatGo]

/-- Per-attempt error labels used in the exhaustion witness: the channel id
followed by one exclamation mark per attempt index, so the labels of
distinct attempts differ. -/
def errsW : Channel → Nat → String :=
  fun c k => c.id ++ String.mk (List.replicate k '!')

/-- Oracle where every attempt on every channel fails with `errsW`. -/
def demoFailOracle : Channel → Nat → Except String String :=
  fun c k => Except.error (errsW c k)

/-- Witness for C2: two channels, `maxRetries=2`, everything fails; the
raised error is the one of channel B's final attempt. -/
theorem chat_full_exhaustion_witness :
    chat demoFailOracle [chanA, chanB] (Int.ofNat 2) =
      ([AttemptRec.mk chanA 0 (Except.error "[gpt-a] @ a.example"),
        AttemptRec.mk chanA 1 (Except.error "[gpt-a] @ a.example!"),
        AttemptRec.mk chanB 0 (Except.error "[gpt-b] @ b.example"),
        AttemptRec.mk chanB 1 (Except.error "[gpt-b] @ b.example!")],
        ChatOutcome.raised "[gpt-b] @ b.example!") :=
  (chat_full_exhaustion_raises_last_cause demoFailOracle errsW [chanA, chanB] 2
      (by simp) (by omega) (fun d _ i _ => rfl)).trans (by decide)

/-- The slice of an adapter response that `chat` inspects for the
validator: `response.choices[0].message.content`. -/
structure Resp where
  content : String
deriving DecidableEq, Repr

/-- Error of one attempt inside `chat`'s `try` block: either the transport
call raised, or it returned and the caller-supplied validator rejected the
content (the `raise ValueError(f"content check failed: ...")` branch). -/
inductive AttemptError (τ : Type) where
  | transport : τ → AttemptError τ
  | validationFailed : String → AttemptError τ
deriving DecidableEq, Repr

/-- One attempt of `chat`'s `try` body: perform the transport call, then
apply the validator (when given) to the response content; a rejected
response raises inside the same `try`, so it is caught by the same
`except` as a transport failure. -/
def validatedCall {τ : Type} (transport : Channel → Nat → Except τ Resp)
    (validator : Option (String → Bool)) (c : Channel) (k : Nat) :
    Except (AttemptError τ) Resp :=
  match transport c k with
  | .error e => .error (.transport e)
  | .ok r =>
    match validator with
    | none => .ok r
    | some f =>
      if f r.content then .ok r else .error (.validationFailed r.content)

/-- C4.  A channel whose transport succeeds but whose validator rejects the
content behaves exactly like a transport-failing channel: it is attempted
exactly `n = maxRetries` times (each attempt recorded as a validation
failure), then dispatch fails over to the next channel with `last_error`
set to the final validation failure — the same shape
`chatGo_cons_fail` gives for a transport-failing channel. -/
theorem chat_validator_failure_like_transport {τ : Type}
    (transport : Channel → Nat → Except τ Resp) (f : String → Bool)
    (rs : Nat → Resp) (c : Channel) (rest : List Channel) (n : Nat) (hn : 0 < n)
    (h : ∀ i < n, transport c i = .ok (rs i) ∧ f (rs i).content = false) :
    chat (validatedCall transport (some f)) (c :: rest) (Int.ofNat n) =
      (((List.range n).map fun i =>
          AttemptRec.mk c i (Except.error (AttemptError.validationFailed (rs i).content))) ++
          (chatGo (validatedCall transport (some f)) n
            (some (AttemptError.validationFailed (rs (n - 1)).content)) rest).1,
        (chatGo (validatedCall transport (some f)) n
          (some (AttemptError.validationFailed (rs (n - 1)).content)) rest).2) := by
  have hval : ∀ i < n, validatedCall transport (some f) c i =
      .error (.validationFailed (rs i).content) := by
    intro i hi
    obtain ⟨ht, hf⟩ := h i hi
    simp [validatedCall, ht, hf]
  have h1 : chat (validatedCall transport (some f)) (c :: rest) (Int.ofNat n) =
      chatGo (validatedCall transport (some f)) n none (c :: rest) := by
    simp [chat]
  rw [h1, chatGo_cons_fail (validatedCall transport (some f))
    (fun i => AttemptError.validationFailed (rs i).content) c rest n none hn hval]

/-- Transport used in the validator witness: channel A answers `"bad"`,
every other channel answers `"good"`. -/
def demoTransport : Channel → Nat → Except String Resp :=
  fun c _ => if c = chanA then Except.ok ⟨"bad"⟩ else Except.ok ⟨"good"⟩

/-- Witness for C4: with the validator accepting only `"good"`, channel A's
transport-successful but rejected responses are retried twice
(`maxRetries=2`) and dispatch then fails over to channel B,
whose validated response is returned. -/
theorem chat_validator_failure_witness :
    chat (validatedCall demoTransport (some fun s => s == "good"))
        [chanA, chanB] (Int.ofNat 2) =
      ([AttemptRec.mk chanA 0 (Except.error (AttemptError.validationFailed "bad")),
        AttemptRec.mk chanA 1 (Except.error (AttemptError.validationFailed "bad")),
        AttemptRec.mk chanB 0 (Except.ok ⟨"good"⟩)],
        ChatOutcome.success (⟨"good"⟩ : Resp)) :=
  (chat_validator_failure_like_transport demoTransport (fun s => s == "good")
      (fun _ => ⟨"bad"⟩) chanA [chanB] 2 (by omega)
      (fun i _ => ⟨rfl, rfl⟩)).trans (by decide)

/-- Log of one attempt of `chat_stream`: the channel, the attempt index,
the text fragments delivered through `on_chunk` during the attempt (in
order), and the attempt's result. -/
structure StreamLog (ε : Type) where
  channel : Channel
  attempt : Nat
  emitted : List String
  result : Except ε String
deriving DecidableEq, Repr

/-- Concatenation of the delivered fragments, the value `full_content`
accumulates piece by piece. -/
def concatPieces (l : List String) : String :=
  l.foldr (fun p acc => p ++ acc) ""

/-- The `async for chunk in stream` loop body of `chat_stream`: a raw chunk
contributes a piece only when `chunk.choices` is non-empty and
`chunk.choices[0].delta.content` is truthy (present and non-empty, modelled
as `some piece` with `piece ≠ ""`); each contributing piece is appended to
`full_content` and passed to `on_chunk`.  Returns
`(full_content, pieces delivered to on_chunk)`. -/
def processChunks : List (Option String) → String × List String
  | [] => ("", [])
  | oc :: rest =>
    match oc with
    | none => processChunks rest
    | some piece =>
      if piece = "" then processChunks rest
      else (piece ++ (processChunks rest).1, piece :: (processChunks rest).2)

/-- One attempt of `chat_stream`'s `try` body.  A non-`"openai"` api family
falls back to the blocking adapter call and emits its complete result as a
single synthetic chunk; an api family that is neither `"openai"`, `"gemini"`
nor `"anthropic"` leaves `response` unbound and raises (`nameErr`).  An
`"openai"` channel streams: `streamCall` yields the raw chunks iterated
before the stream either completed (`none`) or raised mid-stream
(`some e`); the pieces delivered before a mid-stream failure stay
delivered. -/
def streamAttempt {ε : Type} (blocking : Channel → Nat → Except ε String)
    (streamCall : Channel → Nat → List (Option String) × Option ε) (nameErr : ε)
    (c : Channel) (k : Nat) : List String × Except ε String :=
  if c.api_type ≠ "openai" then
    if c.api_type = "gemini" ∨ c.api_type = "anthropic" then
      match blocking c k with
      | .ok content => ([content], .ok content)
      | .error e => ([], .error e)
    else ([], .error nameErr)
  else
    match streamCall c k with
    | (chunks, none) => ((processChunks chunks).2, .ok (processChunks chunks).1)
    | (chunks, some e) => ((processChunks chunks).2, .error e)

/-- The inner retry loop of `chat_stream`, over the remaining attempt
indices, threading `last_error`. -/
def runStreamAttempts {ε : Type} (att : Nat → List String × Except ε String) :
    List Nat → Option ε →
      List (Nat × List String × Except ε String) × Option String × Option ε
  | [], le => ([], none, le)
  | a :: as, le =>
    match att a with
    | (em, .ok s) => ([(a, em, .ok s)], some s, le)
    | (em, .error e) =>
      let rest := runStreamAttempts att as (some e)
      ((a, em, .error e) :: rest.1, rest.2.1, rest.2.2)

/-- The outer channel loop of `chat_stream`. -/
def chatStreamGo {ε : Type} (att : Channel → Nat → List String × Except ε String)
    (maxRetries : Nat) :
    Option ε → List Channel → List (StreamLog ε) × ChatOutcome ε String
  | le, [] =>
    ([], match le with
      | some e => ChatOutcome.raised e
      | none => ChatOutcome.raisedGeneric)
  | le, c :: rest =>
    match runStreamAttempts (att c) (List.range maxRetries) le with
    | (tr, some s, _) =>
      (tr.map fun x => StreamLog.mk c x.1 x.2.1 x.2.2, ChatOutcome.success s)
    | (tr, none, le2) =>
      let next := chatStreamGo att maxRetries le2 rest
      ((tr.map fun x => StreamLog.mk c x.1 x.2.1 x.2.2) ++ next.1, next.2)

/-- `LLMManager.chat_stream`: empty-pool check, then the same
channel-by-channel, `range(max_retries)`-per-channel loop as `chat`, with
`streamAttempt` as the attempt body. -/
def chat_stream {ε : Type} (blocking : Channel → Nat → Except ε String)
    (streamCall : Channel → Nat → List (Option String) × Option ε) (nameErr : ε)
    (pool : List Channel) (maxRetries : Int) :
    List (StreamLog ε) × ChatOutcome ε String :=
  if pool.isEmpty then ([], ChatOutcome.raisedPoolEmpty)
  else chatStreamGo (streamAttempt blocking streamCall nameErr)
    maxRetries.toNat none pool

/-- C5.  Dispatching `chat` or `chat_stream` against a pool with zero
channels raises the descriptive pool-empty error immediately: the attempt
trace is empty, so no retry-loop iteration and no adapter call happens. -/
theorem dispatch_empty_pool_raises_immediately {ε ρ : Type}
    (oracle : Channel → Nat → Except ε ρ)
    (blocking : Channel → Nat → Except ε String)
    (streamCall : Channel → Nat → List (Option String) × Option ε)
    (nameErr : ε) (maxRetries : Int) :
    chat oracle [] maxRetries = ([], ChatOutcome.raisedPoolEmpty) ∧
    chat_stream blocking streamCall nameErr [] maxRetries =
      ([], ChatOutcome.raisedPoolEmpty) :=
  ⟨rfl, rfl⟩

lemma chatGo_zero {ε ρ : Type} (oracle : Channel → Nat → Except ε ρ) :
    ∀ (pool : List Channel) (le : Option ε),
      chatGo oracle 0 le pool =
        ([], match le with
          | some e => ChatOutcome.raised e
          | none => ChatOutcome.raisedGeneric) := by
  intro pool
  induction pool with
  | nil => intro le; rfl
  | cons c rest ih => intro le; simp [chatGo, runAttempts, ih]

lemma chatStreamGo_zero {ε : Type} (att : Channel → Nat → List String × Except ε String) :
    ∀ (pool : List Channel) (le : Option ε),
      chatStreamGo att 0 le pool =
        ([], match le with
          | some e => ChatOutcome.raised e
          | none => ChatOutcome.raisedGeneric) := by
  intro pool
  induction pool with
  | nil => intro le; rfl
  | cons c rest ih => intro le; simp [chatStreamGo, runStreamAttempts, ih]

/-- C10.  If the stored `llm_max_retries` value parses to an integer
`m ≤ 0`, then on any non-empty pool both `chat` and `chat_stream` run zero
adapter attempts on every channel (`range(max_retries)` is empty, so the
retry-loop body never executes and the attempt trace is empty) and raise
the generic all-channels-unavailable `ValueError`, because `last_error` was
never set. -/
theorem chat_nonpositive_max_retries_generic_error {ε ρ : Type}
    (stored : String) (m : Int) (hparse : parsePyInt stored = some m) (hm : m ≤ 0)
    (oracle : Channel → Nat → Except ε ρ)
    (blocking : Channel → Nat → Except ε String)
    (streamCall : Channel → Nat → List (Option String) × Option ε) (nameErr : ε)
    (pool : List Channel) (hne : pool ≠ []) :
    chat oracle pool (get_max_retries (some stored)) =
      ([], ChatOutcome.raisedGeneric) ∧
    chat_stream blocking streamCall nameErr pool (get_max_retries (some stored)) =
      ([], ChatOutcome.raisedGeneric) := by
  have hg : get_max_retries (some stored) = m := by
    simp [get_max_retries, hparse]
  have ht : (get_max_retries (some stored)).toNat = 0 := by
    rw [hg]
    exact Int.toNat_of_nonpos hm
  have hemp : pool.isEmpty = false := by
    cases pool
    · exact absurd rfl hne
    · rfl
  constructor
  · simp [chat, hemp, ht, chatGo_zero]
  · simp [chat_stream, hemp, ht, chatStreamGo_zero]

/-- Blocking-path adapter used in the streaming witnesses. -/
def demoBlocking : Channel → Nat → Except String String :=
  fun _ _ => Except.ok "hello"

/-- Streaming-path adapter used in the streaming witnesses. -/
def demoStreamCall : Channel → Nat → List (Option String) × Option String :=
  fun _ _ => ([some "he", none, some "", some "llo"], none)

/-- Witness for C10: the stored value `"-2"` parses to `-2 ≤ 0`, and both
dispatchers on the one-channel pool `[chanA]` produce an empty attempt
trace and the generic error. -/
theorem chat_nonpositive_max_retries_witness :
    chat demoOracle [chanA] (get_max_retries (some "-2")) =
      ([], ChatOutcome.raisedGeneric) ∧
    chat_stream demoBlocking demoStreamCall "NameError" [chanA]
        (get_max_retries (some "-2")) =
      ([], ChatOutcome.raisedGeneric) :=
  chat_nonpositive_max_retries_generic_error "-2" (-2) (by decide) (by decide)
    demoOracle demoBlocking demoStreamCall "NameError" [chanA] (by simp)

lemma processChunks_full_eq_concat :
    ∀ chunks, (processChunks chunks).1 = concatPieces (processChunks chunks).2 := by
  intro chunks
  induction chunks with
  | nil => rfl
  | cons oc rest ih =>
    cases oc with
    | none => simpa [processChunks] using ih
    | some piece =>
      by_cases hp : piece = ""
      · simpa [processChunks, hp] using ih
      · simp only [processChunks, hp, if_neg, concatPieces, List.foldr_cons] at ih ⊢
        rw [ih]
        rfl

lemma streamAttempt_ok {ε : Type} (blocking : Channel → Nat → Except ε String)
    (streamCall : Channel → Nat → List (Option String) × Option ε) (nameErr : ε)
    (c : Channel) (k : Nat) (em : List String) (s : String)
    (h : streamAttempt blocking streamCall nameErr c k = (em, Except.ok s)) :
    s = concatPieces em ∧
    ((c.api_type = "gemini" ∨ c.api_type = "anthropic") →
      blocking c k = Except.ok s ∧ em = [s]) ∧
    (c.api_type = "openai" → em = (processChunks (streamCall c k).1).2) := by
  unfold streamAttempt at h
  by_cases hopen : c.api_type = "openai"
  · rw [if_neg (by simpa using hopen)] at h
    rcases hsc : streamCall c k with ⟨chunks, merr⟩
    rw [hsc] at h
    cases merr with
    | none =>
      simp only [Prod.mk.injEq] at h
      obtain ⟨hem, hs⟩ := h
      have hs2 : (processChunks chunks).1 = s := by
        simpa using congrArg (fun x => match x with | Except.ok v => v | _ => s) hs
      refine ⟨?_, ?_, ?_⟩
      · rw [← hem, ← hs2]
        exact processChunks_full_eq_concat chunks
      · intro hfam
        rcases hfam with hg | ha
        · rw [hopen] at hg
          exact absurd hg (by decide)
        · rw [hopen] at ha
          exact absurd ha (by decide)
      · intro _
        rw [← hem]
    | some e => simp at h
  · rw [if_pos hopen] at h
    by_cases hfam : c.api_type = "gemini" ∨ c.api_type = "anthropic"
    · rw [if_pos hfam] at h
      cases hb : blocking c k with
      | error e =>
        rw [hb] at h
        simp at h
      | ok content =>
        rw [hb] at h
        simp only [Prod.mk.injEq] at h
        obtain ⟨hem, hs⟩ := h
        have hs2 : content = s := by
          simpa using congrArg (fun x => match x with | Except.ok v => v | _ => s) hs
        subst hs2
        refine ⟨?_, fun _ => ⟨rfl, hem.symm⟩, fun ho => absurd ho hopen⟩
        rw [← hem]
        simp [concatPieces]
    · rw [if_neg hfam] at h
      simp at h

lemma runStreamAttempts_success {ε : Type}
    (att : Nat → List String × Except ε String) :
    ∀ (as : List Nat) (le : Option ε)
      (tr : List (Nat × List String × Except ε String)) (s : String) (le2 : Option ε),
      runStreamAttempts att as le = (tr, some s, le2) →
      ∃ k em, tr.getLast? = some (k, em, Except.ok s) ∧ att k = (em, Except.ok s) := by
  intro as
  induction as with
  | nil =>
    intro le tr s le2 h
    simp [runStreamAttempts] at h
  | cons a as ih =>
    intro le tr s le2 h
    rcases hatt : att a with ⟨em, res⟩
    cases res with
    | ok r =>
      simp only [runStreamAttempts, hatt] at h
      simp only [Prod.mk.injEq] at h
      obtain ⟨htr, hsr, _⟩ := h
      have hr : r = s := by
        simpa using congrArg (fun x => x.getD s) hsr
      subst hr
      exact ⟨a, em, by rw [← htr]; simp, hatt⟩
    | error e =>
      simp only [runStreamAttempts, hatt] at h
      rcases hrest : runStreamAttempts att as (some e) with ⟨tr2, res2, le3⟩
      rw [hrest] at h
      simp only [Prod.mk.injEq] at h
      obtain ⟨htr, hres2, hle3⟩ := h
      obtain ⟨k, em2, hlast, hattk⟩ := ih (some e) tr2 s le3 (by rw [hrest, hres2])
      refine ⟨k, em2, ?_, hattk⟩
      rw [← htr]
      cases tr2 with
      | nil => simp at hlast
      | cons y tr2 => rw [List.getLast?_cons_cons]; exact hlast

lemma chatStreamGo_success {ε : Type}
    (att : Channel → Nat → List String × Except ε String) (n : Nat) :
    ∀ (pool : List Channel) (le : Option ε) (trace : List (StreamLog ε)) (s : String),
      chatStreamGo att n le pool = (trace, ChatOutcome.success s) →
      ∃ c k em, trace.getLast? = some (StreamLog.mk c k em (Except.ok s)) ∧
        att c k = (em, Except.ok s) := by
  intro pool
  induction pool with
  | nil =>
    intro le trace s h
    cases le <;> simp [chatStreamGo] at h
  | cons c rest ih =>
    intro le trace s h
    rcases hrun : runStreamAttempts (att c) (List.range n) le with ⟨tr, res, le2⟩
    cases res with
    | some r =>
      simp only [chatStreamGo, hrun] at h
      simp only [Prod.mk.injEq] at h
      obtain ⟨htrace, hrs⟩ := h
      have hr : r = s := by
        simpa using
          congrArg (fun x => match x with | ChatOutcome.success v => v | _ => s) hrs
      subst hr
      obtain ⟨k, em, hlast, hattk⟩ :=
        runStreamAttempts_success (att c) (List.range n) le tr r le2 hrun
      refine ⟨c, k, em, ?_, hattk⟩
      rw [← htrace, List.getLast?_map, hlast]
      rfl
    | none =>
      simp only [chatStreamGo, hrun] at h
      rcases hnext : chatStreamGo att n le2 rest with ⟨tr3, out3⟩
      rw [hnext] at h
      simp only [Prod.mk.injEq] at h
      obtain ⟨htrace, hout⟩ := h
      obtain ⟨c2, k, em, hlast, hattk⟩ := ih le2 tr3 s (by rw [hnext, hout])
      refine ⟨c2, k, em, ?_, hattk⟩
      rw [← htrace]
      have hne : tr3 ≠ [] := by
        intro hnil
        rw [hnil] at hlast
        simp at hlast
      rw [List.getLast?_append_of_ne_nil _ hne]
      exact hlast

/-- C7.  When a `chat_stream` dispatch succeeds, the final (successful)
attempt in the trace satisfies: a `"gemini"` or `"anthropic"` channel was
executed through the blocking adapter path and its single complete result
was emitted as exactly one synthetic chunk and returned as the full text,
while an `"openai"` channel's returned value is the concatenation of
exactly the chunk fragments delivered to `on_chunk` during that attempt. -/
theorem chat_stream_family_chunk_semantics {ε : Type}
    (blocking : Channel → Nat → Except ε String)
    (streamCall : Channel → Nat → List (Option String) × Option ε)
    (nameErr : ε) (pool : List Channel) (maxRetries : Int)
    (trace : List (StreamLog ε)) (s : String)
    (h : chat_stream blocking streamCall nameErr pool maxRetries =
      (trace, ChatOutcome.success s)) :
    ∃ log : StreamLog ε, trace.getLast? = some log ∧
      log.result = Except.ok s ∧ s = concatPieces log.emitted ∧
      ((log.channel.api_type = "gemini" ∨ log.channel.api_type = "anthropic") →
        blocking log.channel log.attempt = Except.ok s ∧ log.emitted = [s]) ∧
      (log.channel.api_type = "openai" →
        log.emitted = (processChunks (streamCall log.channel log.attempt).1).2) := by
  unfold chat_stream at h
  by_cases hemp : pool.isEmpty
  · rw [if_pos hemp] at h
    simp at h
  · rw [if_neg hemp] at h
    obtain ⟨c, k, em, hlast, hatt⟩ :=
      chatStreamGo_success (streamAttempt blocking streamCall nameErr)
        maxRetries.toNat pool none trace s h
    obtain ⟨hs, hfam, hopen⟩ := streamAttempt_ok blocking streamCall nameErr c k em s hatt
    exact ⟨StreamLog.mk c k em (Except.ok s), hlast, rfl, hs, hfam, hopen⟩

/-- A gemini channel for the streaming witness. -/
def chanG : Channel :=
  { key := "kg", model := "gemini-pro", provider := "g.example",
    api_type := "gemini", is_primary := true, weight := 10, priority := 1,
    model_index := 0, id := "[gemini-pro] @ g.example" }

/-- Witness for C7, both families: a gemini channel emits its blocking
result `"hello"` as one synthetic chunk, and an openai channel returns the
concatenation `"hello"` of the delivered fragments `["he", "llo"]` (the
empty and content-less raw chunks of `demoStreamCall` are skipped). -/
theorem chat_stream_family_witness :
    (∃ log : StreamLog String,
      [StreamLog.mk chanG 0 ["hello"] (Except.ok "hello")].getLast? = some log ∧
      log.result = Except.ok "hello" ∧ "hello" = concatPieces log.emitted ∧
      ((log.channel.api_type = "gemini" ∨ log.channel.api_type = "anthropic") →
        demoBlocking log.channel log.attempt = Except.ok "hello" ∧
        log.emitted = ["hello"]) ∧
      (log.channel.api_type = "openai" →
        log.emitted = (processChunks (demoStreamCall log.channel log.attempt).1).2)) ∧
    (∃ log : StreamLog String,
      [StreamLog.mk chanB 0 ["he", "llo"] (Except.ok "hello")].getLast? = some log ∧
      log.result = Except.ok "hello" ∧ "hello" = concatPieces log.emitted ∧
      ((log.channel.api_type = "gemini" ∨ log.channel.api_type = "anthropic") →
        demoBlocking log.channel log.attempt = Except.ok "hello" ∧
        log.emitted = ["hello"]) ∧
      (log.channel.api_type = "openai" →
        log.emitted = (processChunks (demoStreamCall log.channel log.attempt).1).2)) :=
  ⟨chat_stream_family_chunk_semantics demoBlocking demoStreamCall "NameError"
      [chanG] (Int.ofNat 1) [StreamLog.mk chanG 0 ["hello"] (Except.ok "hello")]
      "hello" (by decide),
    chat_stream_family_chunk_semantics demoBlocking demoStreamCall "NameError"
      [chanB] (Int.ofNat 1) [StreamLog.mk chanB 0 ["he", "llo"] (Except.ok "hello")]
      "hello" (by decide)⟩

/-- One OpenAI-style message handed to an adapter
(`msg.get("role", "user")`, `msg.get("content", "")`). -/
structure ChatMsg where
  role : String
  content : String
deriving DecidableEq, Repr

/-- One part of a Gemini request content (`{"text": ...}`). -/
structure GeminiPart where
  text : String
deriving DecidableEq, Repr

/-- One entry of the Gemini `contents` array. -/
structure GeminiContent where
  role : String
  parts : List GeminiPart
deriving DecidableEq, Repr

/-- The message loop of `GeminiClientWrapper.create_chat_completion`:
`system` messages are pulled out into the `system_instruction` variable
(each occurrence overwrites it), `assistant` messages are renamed to the
`"model"` role, and everything else keeps the `"user"` role, in order.
`si` is the current value of `system_instruction`. -/
def geminiRegroup : List ChatMsg → Option String → List GeminiContent × Option String
  | [], si => ([], si)
  | m :: rest, si =>
    if m.role = "system" then geminiRegroup rest (some m.content)
    else if m.role = "assistant" then
      let r := geminiRegroup rest si
      (⟨"model", [⟨m.content⟩]⟩ :: r.1, r.2)
    else
      let r := geminiRegroup rest si
      (⟨"user", [⟨m.content⟩]⟩ :: r.1, r.2)

/-- The Gemini request body built by `create_chat_completion` (contents plus
the optional `systemInstruction` field; the numeric `generationConfig`
payload carries no message data and is omitted).  The field is only added
when `system_instruction` is truthy — a final empty system content leaves
it out (`if system_instruction:`). -/
structure GeminiRequest where
  contents : List GeminiContent
  systemInstruction : Option String
deriving DecidableEq, Repr

/-- Request construction of `GeminiClientWrapper.create_chat_completion`:
one single non-streaming POST body. -/
def buildGeminiRequest (messages : List ChatMsg) : GeminiRequest :=
  let r := geminiRegroup messages none
  { contents := r.1
    systemInstruction :=
      match r.2 with
      | some s => if s = "" then none else some s
      | none => none }

/-- One part of a Gemini response candidate;
`text` is `none` when the `"text"` key is absent. -/
structure GeminiRespPart where
  text : Option String
deriving DecidableEq, Repr

/-- One Gemini response candidate;
`parts` is `candidates[0].get("content", {}).get("parts", [])`, so an
absent `content` or `parts` key is the empty list. -/
structure GeminiCandidate where
  parts : List GeminiRespPart
deriving DecidableEq, Repr

/-- A Gemini response body. -/
structure GeminiResponse where
  candidates : List GeminiCandidate
deriving DecidableEq, Repr

/-- `GeminiMessageWrapper`: the text of the first candidate's first content
part, or `""` whenever candidates, parts or the text field are absent. -/
def geminiMessageContent (resp : GeminiResponse) : String :=
  match resp.candidates with
  | [] => ""
  | cand :: _ =>
    match cand.parts with
    | [] => ""
    | p :: _ => p.text.getD ""

/-- Spec-side description of the converted `contents` array: every
non-`system` message in order, `assistant` renamed to `"model"`, the rest
as `"user"`. -/
def geminiContentsSpec (messages : List ChatMsg) : List GeminiContent :=
  (messages.filter fun m => m.role ≠ "system").map fun m =>
    if m.role = "assistant" then ⟨"model", [⟨m.content⟩]⟩
    else ⟨"user", [⟨m.content⟩]⟩

/-- Spec-side description of the response-text extraction: first
candidate's first part's text, empty string when anything is absent. -/
def geminiExtractSpec (resp : GeminiResponse) : String :=
  match resp.candidates.head? with
  | none => ""
  | some cand =>
    match cand.parts.head? with
    | none => ""
    | some p => p.text.getD ""

/-- Content of the last system-role message of the sequence, if any. -/
def lastSystemContent (messages : List ChatMsg) : Option String :=
  ((messages.filter fun m => m.role = "system").getLast?).map ChatMsg.content

lemma geminiRegroup_spec :
    ∀ (messages : List ChatMsg) (si : Option String),
      (geminiRegroup messages si).1 = geminiContentsSpec messages ∧
      (geminiRegroup messages si).2 =
        (match (messages.filter fun m => m.role = "system").getLast? with
          | some m => some m.content
          | none => si) := by
  intro messages
  induction messages with
  | nil => intro si; exact ⟨rfl, rfl⟩
  | cons m rest ih =>
    intro si
    simp only [geminiRegroup]
    by_cases hsys : m.role = "system"
    · rw [if_pos hsys]
      refine ⟨(ih (some m.content)).1.trans ?_, (ih (some m.content)).2.trans ?_⟩
      · simp [geminiContentsSpec, List.filter_cons, hsys]
      · rw [List.filter_cons_of_pos (by simp [hsys])]
        cases hfl : (rest.filter fun x => x.role = "system") with
        | nil => simp
        | cons x xs =>
          rw [List.getLast?_cons_cons,
            List.getLast?_eq_getLast (x :: xs) (List.cons_ne_nil x xs)]
    · rw [if_neg hsys]
      by_cases hasst : m.role = "assistant"
      · rw [if_pos hasst]
        refine ⟨?_, ?_⟩
        · show GeminiContent.mk "model" [⟨m.content⟩] :: (geminiRegroup rest si).1 =
            geminiContentsSpec (m :: rest)
          rw [(ih si).1]
          simp [geminiContentsSpec, List.filter_cons, hsys, hasst]
        · show (geminiRegroup rest si).2 = _
          rw [(ih si).2, List.filter_cons_of_neg (by simp [hsys])]
      · rw [if_neg hasst]
        refine ⟨?_, ?_⟩
        · show GeminiContent.mk "user" [⟨m.content⟩] :: (geminiRegroup rest si).1 =
            geminiContentsSpec (m :: rest)
          rw [(ih si).1]
          simp [geminiContentsSpec, List.filter_cons, hsys, hasst]
        · show (geminiRegroup rest si).2 = _
          rw [(ih si).2, List.filter_cons_of_neg (by simp [hsys])]

lemma geminiExtract_eq (resp : GeminiResponse) :
    geminiMessageContent resp = geminiExtractSpec resp := by
  obtain ⟨cands⟩ := resp
  cases cands with
  | nil => rfl
  | cons cand rest =>
    obtain ⟨parts⟩ := cand
    cases parts with
    | nil => rfl
    | cons p ps => rfl

/-- C8 (amended).  For every message sequence given to the gemini adapter:
every system-role message is removed from the `contents` array, assistant
messages are renamed to the `"model"` role and all other messages keep
role `"user"` with order preserved; the request's system-instruction field
carries the content of the *last* system message provided that content is
non-empty, and is absent otherwise (earlier system messages are
overwritten, and an empty final system content is dropped by the
truthiness test); the response text is the text of the first candidate's
first content part, or the empty string whenever candidates, parts or the
text field are absent. -/
theorem gemini_regroup_and_extract (messages : List ChatMsg) :
    (buildGeminiRequest messages).contents = geminiContentsSpec messages ∧
    (buildGeminiRequest messages).systemInstruction =
      (match lastSystemContent messages with
        | some s => if s = "" then none else some s
        | none => none) ∧
    ∀ resp : GeminiResponse, geminiMessageContent resp = geminiExtractSpec resp := by
  refine ⟨?_, ?_, geminiExtract_eq⟩
  · show (geminiRegroup messages none).1 = _
    exact (geminiRegroup_spec messages none).1
  · show (match (geminiRegroup messages none).2 with
      | some s => if s = "" then none else some s
      | none => none) = _
    rw [(geminiRegroup_spec messages none).2]
    unfold lastSystemContent
    cases hfl : (messages.filter fun m => m.role = "system").getLast? with
    | none => rfl
    | some m => rfl

/-- Counterexample to C8 as stated: a system message with empty content is
moved out of `contents` but does *not* end up in a system-instruction
field (the truthiness test drops it), and of two system messages only the
last one's content survives. -/
theorem gemini_system_message_dropped_counterexample :
    (buildGeminiRequest [ChatMsg.mk "system" ""]).contents = [] ∧
    (buildGeminiRequest [ChatMsg.mk "system" ""]).systemInstruction = none ∧
    (¬ (buildGeminiRequest [ChatMsg.mk "system" ""]).systemInstruction = some "") ∧
    (buildGeminiRequest
      [ChatMsg.mk "system" "a", ChatMsg.mk "system" "b"]).systemInstruction =
        some "b" ∧
    (¬ (buildGeminiRequest
      [ChatMsg.mk "system" "a", ChatMsg.mk "system" "b"]).systemInstruction =
        some "a") := by
  refine ⟨rfl, rfl, ?_, rfl, ?_⟩
  · decide
  · decide

/-- One row of the `llm_providers` table (`db_models.LLMProvider`; the
`created_at` string carries no scheduling data and is omitted). -/
structure ProviderRec where
  id : Nat
  name : String
  base_url : String
  api_key : String
  pool_type : String
  api_type : String
  is_primary : Bool
  priority : Int
  weight : Int
  models : String
  enabled : Bool
deriving DecidableEq, Repr

/-- The bulk update
`query(LLMProvider).filter(pool_type == pt, is_primary == True).update({"is_primary": False})`
used by `add_provider` and `set_primary`. -/
def clearPrimaries (db : List ProviderRec) (pt : String) : List ProviderRec :=
  db.map fun p =>
    if p.pool_type = pt ∧ p.is_primary = true then { p with is_primary := false }
    else p

/-- The bulk update of `update_provider`, which additionally excludes the
row being updated (`LLMProvider.id != provider_id`). -/
def clearPrimariesExcept (db : List ProviderRec) (pt : String) (pid : Nat) :
    List ProviderRec :=
  db.map fun p =>
    if p.pool_type = pt ∧ p.is_primary = true ∧ p.id ≠ pid then
      { p with is_primary := false }
    else p

/-- The keyword arguments of `update_provider(provider_id, **kwargs)`:
`none` models an absent key.  Every key named here passes the
`hasattr(provider, key)` check of the source. -/
structure UpdateKwargs where
  name : Option String := none
  base_url : Option String := none
  api_key : Option String := none
  pool_type : Option String := none
  api_type : Option String := none
  is_primary : Option Bool := none
  priority : Option Int := none
  weight : Option Int := none
  models : Option String := none
  enabled : Option Bool := none
deriving DecidableEq, Repr

/-- The `for key, value in kwargs.items(): setattr(provider, key, value)`
loop applied to one row. -/
def applyKwargs (kw : UpdateKwargs) (p : ProviderRec) : ProviderRec :=
  { p with
    name := kw.name.getD p.name
    base_url := kw.base_url.getD p.base_url
    api_key := kw.api_key.getD p.api_key
    pool_type := kw.pool_type.getD p.pool_type
    api_type := kw.api_type.getD p.api_type
    is_primary := kw.is_primary.getD p.is_primary
    priority := kw.priority.getD p.priority
    weight := kw.weight.getD p.weight
    models := kw.models.getD p.models
    enabled := kw.enabled.getD p.enabled }

/-- `llm_service.add_provider`: when `is_primary` is set, first clear every
primary of the same pool, then insert the new row (fresh `newId`,
`priority` at its column default `100`, `enabled=True`). -/
def add_provider (db : List ProviderRec) (newId : Nat)
    (name base_url api_key pool_type models : String) (is_primary : Bool)
    (weight : Int) (api_type : String) : List ProviderRec :=
  let db1 := if is_primary then clearPrimaries db pool_type else db
  db1 ++ [{ id := newId, name := name, base_url := base_url, api_key := api_key,
            pool_type := pool_type, api_type := api_type,
            is_primary := is_primary, priority := 100, weight := weight,
            models := models, enabled := true }]

/-- `llm_service.update_provider`: look up the row by primary key (an
unknown id changes nothing and returns `False`); if `kwargs` contains a
truthy `is_primary`, clear every other primary of the row's *current*
pool; then apply every keyword to the row. -/
def update_provider (db : List ProviderRec) (pid : Nat) (kw : UpdateKwargs) :
    List ProviderRec :=
  match db.find? fun p => p.id = pid with
  | none => db
  | some provider =>
    let db1 :=
      if kw.is_primary = some true then
        clearPrimariesExcept db provider.pool_type pid
      else db
    db1.map fun p => if p.id = pid then applyKwargs kw p else p

/-- `llm_service.set_primary`: look up the row, clear every primary of its
pool (the row itself included), then set the row's flag. -/
def set_primary (db : List ProviderRec) (pid : Nat) : List ProviderRec :=
  match db.find? fun p => p.id = pid with
  | none => db
  | some provider =>
    (clearPrimaries db provider.pool_type).map fun p =>
      if p.id = pid then { p with is_primary := true } else p

/-- Number of rows of `pt` that carry the primary flag. -/
def primaryCount (db : List ProviderRec) (pt : String) : Nat :=
  db.countP fun p => p.pool_type = pt ∧ p.is_primary = true

/-- The registry invariant of the spec: at most one primary per pool type. -/
def PrimaryInvariant (db : List ProviderRec) : Prop :=
  ∀ pt, primaryCount db pt ≤ 1

/-- Registry with one primary in each of the two pools — the invariant
holds. -/
def dbCx : List ProviderRec :=
  [{ id := 1, name := "A", base_url := "", api_key := "k",
     pool_type := "metadata", api_type := "openai", is_primary := true,
     priority := 1, weight := 10, models := "m", enabled := true },
   { id := 2, name := "B", base_url := "", api_key := "k2",
     pool_type := "analysis", api_type := "openai", is_primary := true,
     priority := 1, weight := 10, models := "m2", enabled := true }]

/-- Keyword arguments that move a record into the `"analysis"` pool. -/
def kwMove : UpdateKwargs := { pool_type := some "analysis" }

lemma primaryCount_dbCx (pt : String) : primaryCount dbCx pt ≤ 1 := by
  by_cases h1 : pt = "metadata"
  · subst h1; decide
  · by_cases h2 : pt = "analysis"
    · subst h2; decide
    · have hm : ¬("metadata" = pt) := fun h => h1 h.symm
      have ha : ¬("analysis" = pt) := fun h => h2 h.symm
      simp [primaryCount, dbCx, List.countP_cons, hm, ha]

lemma dbCx_invariant : PrimaryInvariant dbCx := primaryCount_dbCx

/-- Counterexample to C6 as stated: `update_provider` with a `pool_type`
keyword moves the primary record 1 from `"metadata"` into `"analysis"`,
which already has a primary — afterwards `"analysis"` holds two primary
records, so not every registry write operation preserves the invariant. -/
theorem update_provider_pool_move_breaks_invariant :
    PrimaryInvariant dbCx ∧
    primaryCount (update_provider dbCx 1 kwMove) "analysis" = 2 ∧
    ¬ PrimaryInvariant (update_provider dbCx 1 kwMove) := by
  refine ⟨dbCx_invariant, by decide, ?_⟩
  intro hctr
  have h2 : primaryCount (update_provider dbCx 1 kwMove) "analysis" = 2 := by decide
  have := hctr "analysis"
  omega

lemma countP_id_le_one (db : List ProviderRec) (pid : Nat)
    (h : (db.map ProviderRec.id).Nodup) :
    db.countP (fun p => p.id = pid) ≤ 1 := by
  induction db with
  | nil => simp
  | cons p db ih =>
    rw [List.map_cons, List.nodup_cons] at h
    obtain ⟨hnin, hnd⟩ := h
    rw [List.countP_cons]
    by_cases hp : p.id = pid
    · have hz : db.countP (fun q => q.id = pid) = 0 := by
        rw [List.countP_eq_zero]
        intro q hq
        simp only [decide_eq_true_eq]
        intro hq2
        exact hnin (by
          rw [show p.id = q.id from hp.trans hq2.symm]
          exact List.mem_map_of_mem ProviderRec.id hq)
      simp [hp, hz]
    · simp only [hp, decide_eq_true_eq, if_false]
      simp [hp]
      exact ih hnd

lemma find?_id_unique (db : List ProviderRec) (pid : Nat) (prov : ProviderRec)
    (hids : (db.map ProviderRec.id).Nodup)
    (hf : db.find? (fun p => p.id = pid) = some prov) :
    prov ∈ db ∧ prov.id = pid ∧ ∀ p ∈ db, p.id = pid → p = prov := by
  have hmem := List.mem_of_find?_eq_some hf
  have hid : prov.id = pid := by simpa using List.find?_some hf
  exact ⟨hmem, hid, fun p hp hpid =>
    List.inj_on_of_nodup_map hids hp hmem (by rw [hpid, hid])⟩

/-- The effect of `set_primary` on one row, with the looked-up row's pool
type `pt` and the target id `pid`: first the bulk clear, then the flag set
on the target row. -/
def setPrimaryElem (pt : String) (pid : Nat) (p : ProviderRec) : ProviderRec :=
  let q := if p.pool_type = pt ∧ p.is_primary = true then
      { p with is_primary := false }
    else p
  if q.id = pid then { q with is_primary := true } else q

lemma set_primary_eq_map (db : List ProviderRec) (pid : Nat) (prov : ProviderRec)
    (hf : db.find? (fun p => p.id = pid) = some prov) :
    set_primary db pid = db.map (setPrimaryElem prov.pool_type pid) := by
  have h1 : set_primary db pid =
      (clearPrimaries db prov.pool_type).map
        (fun p => if p.id = pid then { p with is_primary := true } else p) := by
    unfold set_primary
    rw [hf]
  rw [h1]
  unfold clearPrimaries
  rw [List.map_map]
  rfl

/-- The effect of `update_provider` on one row. -/
def updateElem (pt : String) (pid : Nat) (kw : UpdateKwargs) (p : ProviderRec) :
    ProviderRec :=
  let q := if kw.is_primary = some true then
      (if p.pool_type = pt ∧ p.is_primary = true ∧ p.id ≠ pid then
        { p with is_primary := false }
      else p)
    else p
  if q.id = pid then applyKwargs kw q else q

lemma update_provider_eq_map (db : List ProviderRec) (pid : Nat)
    (kw : UpdateKwargs) (prov : ProviderRec)
    (hf : db.find? (fun p => p.id = pid) = some prov) :
    update_provider db pid kw = db.map (updateElem prov.pool_type pid kw) := by
  by_cases hkw : kw.is_primary = some true
  · have h1 : update_provider db pid kw =
        (clearPrimariesExcept db prov.pool_type pid).map
          (fun p => if p.id = pid then applyKwargs kw p else p) := by
      unfold update_provider
      rw [hf]
      simp [hkw]
    rw [h1]
    unfold clearPrimariesExcept
    rw [List.map_map]
    apply List.map_congr_left
    intro p _
    simp [updateElem, hkw]
  · have h1 : update_provider db pid kw =
        db.map (fun p => if p.id = pid then applyKwargs kw p else p) := by
      unfold update_provider
      rw [hf]
      simp [hkw]
    rw [h1]
    apply List.map_congr_left
    intro p _
    simp [updateElem, hkw]

lemma primaryCount_map (f : ProviderRec → ProviderRec) (db : List ProviderRec)
    (pt : String) :
    primaryCount (db.map f) pt =
      db.countP (fun p => (f p).pool_type = pt ∧ (f p).is_primary = true) := by
  unfold primaryCount
  rw [List.countP_map]
  rfl

lemma set_primary_preserves (db : List ProviderRec) (pid : Nat)
    (hids : (db.map ProviderRec.id).Nodup) (hinv : PrimaryInvariant db) :
    PrimaryInvariant (set_primary db pid) := by
  cases hf : db.find? (fun p => p.id = pid) with
  | none =>
    have hid : set_primary db pid = db := by unfold set_primary; rw [hf]
    rw [hid]
    exact hinv
  | some prov =>
    rw [set_primary_eq_map db pid prov hf]
    intro pt
    rw [primaryCount_map]
    by_cases hpt : pt = prov.pool_type
    · subst hpt
      refine le_trans (List.countP_mono_left ?_) (countP_id_le_one db pid hids)
      intro p hp hpred
      simp only [decide_eq_true_eq] at hpred ⊢
      by_contra hne
      by_cases hc : p.pool_type = prov.pool_type ∧ p.is_primary = true <;>
        simp [setPrimaryElem, hc, hne] at hpred
    · refine le_trans (List.countP_mono_left ?_) (hinv pt)
      intro p hp hpred
      simp only [decide_eq_true_eq] at hpred ⊢
      by_cases hpid : p.id = pid
      · have hpp : p = prov := (find?_id_unique db pid prov hids hf).2.2 p hp hpid
        by_cases hc : p.pool_type = prov.pool_type ∧ p.is_primary = true
        · simp [setPrimaryElem, hc, hpid] at hpred
          exact (hpt hpred.symm).elim
        · simp [setPrimaryElem, hc, hpid] at hpred
          rw [hpp] at hpred
          exact (hpt hpred.symm).elim
      · by_cases hc : p.pool_type = prov.pool_type ∧ p.is_primary = true <;>
          simp [setPrimaryElem, hc, hpid] at hpred
        exact hpred

lemma update_provider_preserves (db : List ProviderRec) (pid : Nat)
    (kw : UpdateKwargs) (hids : (db.map ProviderRec.id).Nodup)
    (hptkw : kw.pool_type = none) (hinv : PrimaryInvariant db) :
    PrimaryInvariant (update_provider db pid kw) := by
  cases hf : db.find? (fun p => p.id = pid) with
  | none =>
    have hid : update_provider db pid kw = db := by
      unfold update_provider
      rw [hf]
    rw [hid]
    exact hinv
  | some prov =>
    rw [update_provider_eq_map db pid kw prov hf]
    intro pt
    rw [primaryCount_map]
    by_cases hkw : kw.is_primary = some true
    · by_cases hpt : pt = prov.pool_type
      · subst hpt
        refine le_trans (List.countP_mono_left ?_) (countP_id_le_one db pid hids)
        intro p hp hpred
        simp only [decide_eq_true_eq] at hpred ⊢
        by_contra hne
        by_cases hc : p.pool_type = prov.pool_type ∧ p.is_primary = true <;>
          simp [updateElem, hkw, hc, hne] at hpred
      · refine le_trans (List.countP_mono_left ?_) (hinv pt)
        intro p hp hpred
        simp only [decide_eq_true_eq] at hpred ⊢
        by_cases hpid : p.id = pid
        · have hpp : p = prov := (find?_id_unique db pid prov hids hf).2.2 p hp hpid
          simp [updateElem, hkw, hpid, applyKwargs, hptkw] at hpred
          exact (hpt (by rw [← hpred, hpp])).elim
        · by_cases hc : p.pool_type = prov.pool_type ∧ p.is_primary = true
          · simp [updateElem, hkw, hc, hpid] at hpred
          · simp [updateElem, hkw, hc, hpid] at hpred
            exact hpred
    · refine le_trans (List.countP_mono_left ?_) (hinv pt)
      intro p hp hpred
      simp only [decide_eq_true_eq] at hpred ⊢
      by_cases hpid : p.id = pid
      · cases hio : kw.is_primary with
        | none =>
          simp [updateElem, hkw, hpid, applyKwargs, hptkw, hio] at hpred
          exact hpred
        | some b =>
          cases b with
          | true => exact absurd hio hkw
          | false =>
            simp [updateElem, hkw, hpid, applyKwargs, hptkw, hio] at hpred
      · simp [updateElem, hkw, hpid] at hpred
        exact hpred

lemma add_provider_preserves (db : List ProviderRec) (newId : Nat)
    (name base_url api_key pt0 models : String) (prim : Bool) (w : Int)
    (atype : String) (hinv : PrimaryInvariant db) :
    PrimaryInvariant
      (add_provider db newId name base_url api_key pt0 models prim w atype) := by
  intro pt
  unfold add_provider primaryCount
  cases prim with
  | false =>
    rw [show (if (false : Bool) = true then clearPrimaries db pt0 else db) = db
      from rfl]
    rw [List.countP_append]
    have hone : List.countP
        (fun p : ProviderRec => decide (p.pool_type = pt ∧ p.is_primary = true))
        [{ id := newId, name := name, base_url := base_url, api_key := api_key,
           pool_type := pt0, api_type := atype, is_primary := false,
           priority := 100, weight := w, models := models, enabled := true }] = 0 := by
      simp
    rw [hone]
    have := hinv pt
    unfold primaryCount at this
    omega
  | true =>
    rw [show (if (true : Bool) = true then clearPrimaries db pt0 else db) =
      clearPrimaries db pt0 from rfl]
    rw [List.countP_append]
    by_cases hpt : pt0 = pt
    · subst hpt
      have hz : List.countP
          (fun p : ProviderRec => decide (p.pool_type = pt0 ∧ p.is_primary = true))
          (clearPrimaries db pt0) = 0 := by
        rw [List.countP_eq_zero]
        intro q hq
        unfold clearPrimaries at hq
        obtain ⟨p, hp, rfl⟩ := List.mem_map.mp hq
        by_cases hc : p.pool_type = pt0 ∧ p.is_primary = true <;> simp [hc]
      rw [hz]
      simp
    · have heq : List.countP
          (fun p : ProviderRec => decide (p.pool_type = pt ∧ p.is_primary = true))
          (clearPrimaries db pt0) =
          db.countP
            (fun p : ProviderRec => decide (p.pool_type = pt ∧ p.is_primary = true)) := by
        unfold clearPrimaries
        rw [List.countP_map]
        apply List.countP_congr
        intro p hp
        by_cases hc : p.pool_type = pt0 ∧ p.is_primary = true <;>
          simp [Function.comp, hc, hpt]
      rw [heq]
      have hone : List.countP
          (fun p : ProviderRec => decide (p.pool_type = pt ∧ p.is_primary = true))
          [{ id := newId, name := name, base_url := base_url, api_key := api_key,
             pool_type := pt0, api_type := atype, is_primary := true,
             priority := 100, weight := w, models := models, enabled := true }] = 0 := by
        simp
        intro h1
        exact absurd h1 hpt
      rw [hone]
      have := hinv pt
      unfold primaryCount at this
      omega

lemma filter_map_fixed {f : ProviderRec → ProviderRec} {pt : String} :
    ∀ (db : List ProviderRec),
      (∀ p ∈ db, p.pool_type = pt → f p = p) →
      (∀ p ∈ db, (f p).pool_type = p.pool_type) →
      (db.map f).filter (fun p => p.pool_type = pt) =
        db.filter (fun p => p.pool_type = pt) := by
  intro db
  induction db with
  | nil => intro _ _; rfl
  | cons p db ih =>
    intro hfix hpool
    rw [List.map_cons, List.filter_cons, List.filter_cons]
    have htail := ih (fun q hq => hfix q (List.mem_cons_of_mem p hq))
      (fun q hq => hpool q (List.mem_cons_of_mem p hq))
    by_cases hp : p.pool_type = pt
    · rw [hfix p (List.mem_cons_self p db) hp]
      simp [hp, htail]
    · have hf2 : ¬((f p).pool_type = pt) := by
        rw [hpool p (List.mem_cons_self p db)]
        exact hp
      simp [hp, hf2, htail]

lemma set_primary_other_pools (db : List ProviderRec) (pid : Nat)
    (prov : ProviderRec) (pt : String)
    (hids : (db.map ProviderRec.id).Nodup)
    (hf : db.find? (fun p => p.id = pid) = some prov)
    (hpt : pt ≠ prov.pool_type) :
    (set_primary db pid).filter (fun p => p.pool_type = pt) =
      db.filter (fun p => p.pool_type = pt) := by
  rw [set_primary_eq_map db pid prov hf]
  apply filter_map_fixed
  · intro p hp hppt
    have hpid : ¬(p.id = pid) := by
      intro h
      have hpp : p = prov := (find?_id_unique db pid prov hids hf).2.2 p hp h
      exact hpt (by rw [← hppt, hpp])
    have hc : ¬(p.pool_type = prov.pool_type ∧ p.is_primary = true) := by
      intro hcc
      exact hpt (by rw [← hppt, hcc.1])
    simp [setPrimaryElem, hc, hpid]
  · intro p hp
    by_cases hc : p.pool_type = prov.pool_type ∧ p.is_primary = true <;>
      by_cases hpid2 : p.id = pid <;> simp [setPrimaryElem, hc, hpid2]

lemma update_provider_other_pools (db : List ProviderRec) (pid : Nat)
    (kw : UpdateKwargs) (prov : ProviderRec) (pt : String)
    (hids : (db.map ProviderRec.id).Nodup)
    (hf : db.find? (fun p => p.id = pid) = some prov)
    (hptkw : kw.pool_type = none)
    (hpt : pt ≠ prov.pool_type) :
    (update_provider db pid kw).filter (fun p => p.pool_type = pt) =
      db.filter (fun p => p.pool_type = pt) := by
  rw [update_provider_eq_map db pid kw prov hf]
  apply filter_map_fixed
  · intro p hp hppt
    have hpid : ¬(p.id = pid) := by
      intro h
      have hpp : p = prov := (find?_id_unique db pid prov hids hf).2.2 p hp h
      exact hpt (by rw [← hppt, hpp])
    have hc : ¬(p.pool_type = prov.pool_type ∧ p.is_primary = true) := by
      intro hcc
      exact hpt (by rw [← hppt, hcc.1])
    by_cases hkw : kw.is_primary = some true <;>
      simp [updateElem, hkw, hc, hpid]
  · intro p hp
    by_cases hkw : kw.is_primary = some true <;>
      by_cases hc : p.pool_type = prov.pool_type ∧ p.is_primary = true <;>
      by_cases hpid2 : p.id = pid <;>
      simp [updateElem, hkw, hc, hpid2, applyKwargs, hptkw]

/-- C6 (amended).  Under unique provider ids (the table's primary key):
`add_provider` and `set_primary` preserve the at-most-one-primary-per-pool
invariant, and `update_provider` preserves it whenever the call does not
change the record's `pool_type` (the counterexample shows a `pool_type`
keyword can move a primary into a pool that already has one); moreover
`set_primary` and pool-type-preserving `update_provider` leave the records
of every other pool type unchanged. -/
theorem registry_primary_invariant_preserved :
    (∀ (db : List ProviderRec) (newId : Nat)
        (name base_url api_key pool_type models : String) (is_primary : Bool)
        (weight : Int) (api_type : String), PrimaryInvariant db →
        PrimaryInvariant (add_provider db newId name base_url api_key pool_type
          models is_primary weight api_type)) ∧
    (∀ (db : List ProviderRec) (pid : Nat) (kw : UpdateKwargs),
        (db.map ProviderRec.id).Nodup → kw.pool_type = none →
        PrimaryInvariant db → PrimaryInvariant (update_provider db pid kw)) ∧
    (∀ (db : List ProviderRec) (pid : Nat),
        (db.map ProviderRec.id).Nodup → PrimaryInvariant db →
        PrimaryInvariant (set_primary db pid)) ∧
    (∀ (db : List ProviderRec) (pid : Nat) (prov : ProviderRec) (pt : String),
        (db.map ProviderRec.id).Nodup →
        db.find? (fun p => p.id = pid) = some prov → pt ≠ prov.pool_type →
        (set_primary db pid).filter (fun p => p.pool_type = pt) =
          db.filter (fun p => p.pool_type = pt)) ∧
    (∀ (db : List ProviderRec) (pid : Nat) (kw : UpdateKwargs)
        (prov : ProviderRec) (pt : String), (db.map ProviderRec.id).Nodup →
        db.find? (fun p => p.id = pid) = some prov → kw.pool_type = none →
        pt ≠ prov.pool_type →
        (update_provider db pid kw).filter (fun p => p.pool_type = pt) =
          db.filter (fun p => p.pool_type = pt)) :=
  ⟨fun db newId nm bu ak pt0 md ip w aty hinv =>
      add_provider_preserves db newId nm bu ak pt0 md ip w aty hinv,
    fun db pid kw hids hptkw hinv =>
      update_provider_preserves db pid kw hids hptkw hinv,
    fun db pid hids hinv => set_primary_preserves db pid hids hinv,
    fun db pid prov pt hids hf hpt =>
      set_primary_other_pools db pid prov pt hids hf hpt,
    fun db pid kw prov pt hids hf hptkw hpt =>
      update_provider_other_pools db pid kw prov pt hids hf hptkw hpt⟩

/-- Witness for the amended C6, applied to the two-pool registry `dbCx`:
`set_primary`, `add_provider` and a pool-preserving `update_provider` all
keep at most one primary per pool. -/
theorem registry_primary_invariant_witness :
    PrimaryInvariant (set_primary dbCx 1) ∧
    PrimaryInvariant
      (add_provider dbCx 3 "C" "" "k3" "metadata" "m3" true 10 "openai") ∧
    PrimaryInvariant (update_provider dbCx 2 { weight := some 20 }) :=
  ⟨registry_primary_invariant_preserved.2.2.1 dbCx 1 (by decide) dbCx_invariant,
    registry_primary_invariant_preserved.1 dbCx 3 "C" "" "k3" "metadata" "m3"
      true 10 "openai" dbCx_invariant,
    registry_primary_invariant_preserved.2.1 dbCx 2 { weight := some 20 }
      (by decide) rfl dbCx_invariant⟩

end PaperFlow
